import Mathlib

/-!
Verification of the Ballista wire-serialization layer
(`ballista/core/src/serde/mod.rs`).

The development shallowly embeds the two extension codecs of that file:

* `BallistaLogicalExtensionCodec` — the composed logical codec with its
  ordered list of file-format sub-codecs, the `try_any` trial loop, and the
  position-byte framing of `try_encode_file_format` /
  `try_decode_file_format`;
* `BallistaPhysicalExtensionCodec` — the shuffle physical codec with its
  `try_encode` / `try_decode` over the three distributed node kinds
  (ShuffleWriter, ShuffleReader, UnresolvedShuffle).

Byte buffers are `List Nat` (each entry one byte; the only byte the codec
itself fabricates is the position byte, written already reduced mod 256,
mirroring Rust's `position as u8`).  Rust `usize` values are unbounded `Nat`
with the `as u32` / `as u64` casts translated to `% 2^32` / `% 2^64`.
Protobuf (prost) byte serialization of the physical-plan envelope is
modelled at the message level: prost's encode/decode pair is the identity
on well-formed messages, so the envelope structure itself stands for its
bytes.  Fallible Rust code returns `Except`; the one panic site
(`inputs[0]` on a slice) is modelled by a dedicated outcome constructor.
-/

namespace Ballista

/-- Error type mirroring the `DataFusionError` variants this file produces
(`NotImplemented` and `Internal`). -/
inductive DataFusionError where
  | NotImplemented (msg : String)
  | Internal (msg : String)
  deriving Repr, DecidableEq

/-- One file-format sub-codec (`Arc<dyn LogicalExtensionCodec>` restricted to
the two file-format methods the composed codec invokes).  `encode_ff` returns
the bytes the sub-codec appended to the scratch buffer together with
`none` on success or `some e` on failure — a failing sub-codec may still have
written bytes, exactly as a Rust implementation may mutate the `&mut Vec<u8>`
before returning `Err`.  `decode_ff` parses a byte blob. -/
structure SubCodec where
  encode_ff : Nat → List Nat × Option DataFusionError
  decode_ff : List Nat → Except DataFusionError Nat

/-- The composed logical codec: a default codec for plan-extension nodes and
the ordered list of file-format sub-codecs (`file_format_codecs`). -/
structure BallistaLogicalExtensionCodec where
  default_codec : SubCodec
  file_format_codecs : List SubCodec

/-- Bytes written by a list of sub-codecs when each is attempted in order on
`node` (the scratch buffer accumulated across attempts). -/
def writesConcat (node : Nat) : List SubCodec → List Nat
  | [] => []
  | c :: cs => (c.encode_ff node).1 ++ writesConcat node cs

/-- The loop body of `BallistaLogicalExtensionCodec::try_any`, specialised to
the file-format encode closure of `try_encode_file_format` and threading the
scratch buffer that the closure mutates.  `pos` is the running enumeration
index, `acc` the scratch buffer, `lastErr` the `last_err` variable.  On the
first success it returns `position as u8`, i.e. the index reduced mod 256;
when the list is exhausted it surfaces `last_err`, or the
"Empty list of composed codecs" error when no codec was ever tried. -/
def tryAnyGo (node : Nat) : List SubCodec → Nat → List Nat →
    Option DataFusionError → List Nat × Except DataFusionError Nat
  | [], _, acc, lastErr =>
      (acc, .error (lastErr.getD (.NotImplemented "Empty list of composed codecs")))
  | c :: rest, pos, acc, lastErr =>
      match c.encode_ff node with
      | (written, none) => (acc ++ written, .ok (pos % 256))
      | (written, some e) => tryAnyGo node rest (pos + 1) (acc ++ written) (some e)

/-- `BallistaLogicalExtensionCodec::try_any` applied to the file-format
encode closure: runs the trial loop from position 0 with a fresh scratch
buffer, returning the final scratch buffer and either the winning position
byte or the propagated error. -/
def BallistaLogicalExtensionCodec.try_any (self : BallistaLogicalExtensionCodec)
    (node : Nat) : List Nat × Except DataFusionError Nat :=
  tryAnyGo node self.file_format_codecs 0 [] none

/-- `BallistaLogicalExtensionCodec::try_encode_file_format`: run the trial
loop over a fresh `encoded_format` scratch buffer; on success push the
position byte onto `buf` and append the whole scratch buffer; on failure
leave `buf` untouched and propagate the error. -/
def BallistaLogicalExtensionCodec.try_encode_file_format
    (self : BallistaLogicalExtensionCodec) (buf : List Nat) (node : Nat) :
    Except DataFusionError (List Nat) :=
  match self.try_any node with
  | (encoded_format, .ok codec_number) => .ok (buf ++ codec_number :: encoded_format)
  | (_, .error e) => .error e

/-- `BallistaLogicalExtensionCodec::try_decode_file_format`: an empty blob is
rejected outright; otherwise the leading byte selects the sub-codec by list
position (out of range is the "required codex" error) and the remaining
bytes are dispatched to exactly that sub-codec. -/
def BallistaLogicalExtensionCodec.try_decode_file_format
    (self : BallistaLogicalExtensionCodec) (buf : List Nat) :
    Except DataFusionError Nat :=
  match buf with
  | [] => .error (.NotImplemented "File format blob should have more than 0 bytes")
  | codec_number :: rest =>
      match self.file_format_codecs[codec_number]? with
      | none => .error (.NotImplemented "Cant find required codex")
      | some codec => codec.decode_ff rest

/-- Modelled from the spec: the five registered file-format sub-codecs
(CSV, JSON, Parquet, Arrow, Avro, from the external datafusion-proto crate)
each accept exactly their own file format, fail without writing anything on
any other format, and decode their own blobs.  `k` tags the format the codec
owns. -/
def formatCodec (k : Nat) : SubCodec where
  encode_ff node :=
    if node = k then ([node], none)
    else ([], some (.NotImplemented "codec does not support this file format"))
  decode_ff bytes :=
    match bytes with
    | [n] => .ok n
    | _ => .error (.Internal "malformed file format blob")

/-- Modelled from the spec: the default logical extension codec used for
plan-extension (non-file-format) nodes; it owns no file format. -/
def defaultLogicalCodec : SubCodec where
  encode_ff _ := ([], some (.NotImplemented "LogicalExtensionCodec is not provided"))
  decode_ff _ := .error (.NotImplemented "LogicalExtensionCodec is not provided")

/-- `BallistaLogicalExtensionCodec::default`: the default codec plus the five
file-format sub-codecs in registration order (CSV, JSON, Parquet, Arrow,
Avro). -/
def BallistaLogicalExtensionCodec.mkDefault : BallistaLogicalExtensionCodec where
  default_codec := defaultLogicalCodec
  file_format_codecs :=
    [formatCodec 0, formatCodec 1, formatCodec 2, formatCodec 3, formatCodec 4]

theorem tryAnyGo_nil (node : Nat) (pos : Nat) (acc : List Nat)
    (lastErr : Option DataFusionError) :
    tryAnyGo node [] pos acc lastErr =
      (acc, .error (lastErr.getD (.NotImplemented "Empty list of composed codecs"))) :=
  rfl

theorem tryAnyGo_cons (node : Nat) (c : SubCodec) (rest : List SubCodec)
    (pos : Nat) (acc : List Nat) (lastErr : Option DataFusionError) :
    tryAnyGo node (c :: rest) pos acc lastErr =
      match c.encode_ff node with
      | (written, none) => (acc ++ written, .ok (pos % 256))
      | (written, some e) => tryAnyGo node rest (pos + 1) (acc ++ written) (some e) :=
  rfl

/-- First-success behaviour of the trial loop: if every codec in `pre` fails
and `ci` succeeds, the loop stops at `ci`, the scratch buffer holds every
attempted codec's writes (failed residue first, then the winner's blob), and
the reported position is the enumeration index reduced mod 256. -/
theorem tryAnyGo_first_success (node : Nat) (ci : SubCodec) (post : List SubCodec)
    (hok : (ci.encode_ff node).2 = none) :
    ∀ (pre : List SubCodec) (pos : Nat) (acc : List Nat)
      (lastErr : Option DataFusionError),
      (∀ c ∈ pre, ((c.encode_ff node).2).isSome) →
      tryAnyGo node (pre ++ ci :: post) pos acc lastErr =
        (acc ++ writesConcat node pre ++ (ci.encode_ff node).1,
         .ok ((pos + pre.length) % 256)) := by
  intro pre
  induction pre with
  | nil =>
      intro pos acc lastErr _
      rcases hp : ci.encode_ff node with ⟨w, e⟩
      rw [hp] at hok
      subst hok
      simp [tryAnyGo, hp, writesConcat]
  | cons c cs ih =>
      intro pos acc lastErr hfail
      rcases hp : c.encode_ff node with ⟨w, e⟩
      have hc : ((c.encode_ff node).2).isSome := hfail c (by simp)
      rw [hp] at hc
      rcases e with _ | e
      · simp at hc
      · have ih' := ih (pos + 1) (acc ++ w) (some e)
          (fun c hmem => hfail c (List.mem_cons_of_mem _ hmem))
        have harith : pos + 1 + cs.length = pos + (cs.length + 1) := by omega
        rw [harith] at ih'
        simp only [List.cons_append, tryAnyGo, hp, writesConcat, List.append_eq]
        rw [ih']
        simp [List.append_assoc]

/-- All-fail behaviour of the trial loop: when every codec in `cs` fails and
the final codec fails with `e`, the loop surfaces exactly `e` (the last
error overwrites all earlier ones). -/
theorem tryAnyGo_all_fail (node : Nat) (clast : SubCodec) (e : DataFusionError)
    (hlast : (clast.encode_ff node).2 = some e) :
    ∀ (cs : List SubCodec) (pos : Nat) (acc : List Nat)
      (lastErr : Option DataFusionError),
      (∀ c ∈ cs, ((c.encode_ff node).2).isSome) →
      tryAnyGo node (cs ++ [clast]) pos acc lastErr =
        (acc ++ writesConcat node (cs ++ [clast]), .error e) := by
  intro cs
  induction cs with
  | nil =>
      intro pos acc lastErr _
      rcases hp : clast.encode_ff node with ⟨w, e'⟩
      rw [hp] at hlast
      simp only at hlast
      subst hlast
      simp [tryAnyGo, hp, writesConcat]
  | cons c cs ih =>
      intro pos acc lastErr hfail
      rcases hp : c.encode_ff node with ⟨w, e'⟩
      have hc : ((c.encode_ff node).2).isSome := hfail c (by simp)
      rw [hp] at hc
      rcases e' with _ | e'
      · simp at hc
      · have ih' := ih (pos + 1) (acc ++ w) (some e')
          (fun c hmem => hfail c (List.mem_cons_of_mem _ hmem))
        simp only [List.cons_append, tryAnyGo, hp, writesConcat, List.append_eq]
        rw [ih']
        simp [List.append_assoc]

/-- Schema model: a field list (name and an opaque datatype tag).  Modelled
from the spec: the engine schema and its wire form are related by exact
inverse converters, so one type serves for both sides. -/
abbrev Schema := List (String × Nat)

/-- Opaque physical expression.  Modelled from the spec: the generic
expression (de)serializer is an exact inverse pair, so the in-memory and
wire forms coincide. -/
abbrev PhysExpr := Nat

/-- Opaque partition location.  Modelled from the spec: the
PartitionLocation message converts bidirectionally to and from the internal
location value. -/
abbrev PartitionLocation := Nat

/-- Engine partitioning scheme (`datafusion::physical_plan::Partitioning`):
round-robin, hash of expressions into buckets, or unknown. -/
inductive Partitioning where
  | RoundRobinBatch (n : Nat)
  | Hash (exprs : List PhysExpr) (n : Nat)
  | UnknownPartitioning (n : Nat)
  deriving Repr, DecidableEq

/-- Wire message `PhysicalHashRepartition`: serialized hash expressions plus
the bucket count (a u64 field). -/
structure PhysicalHashRepartition where
  hash_expr : List PhysExpr
  partition_count : Nat
  deriving Repr, DecidableEq

/-- Wire message `ShuffleWriterExecNode`: job id, stage id (u32), the
reserved input field (always absent on the wire), and the optional hash
partitioning. -/
structure ShuffleWriterExecNode where
  job_id : String
  stage_id : Nat
  input : Option Unit
  output_partitioning : Option PhysicalHashRepartition
  deriving Repr, DecidableEq

/-- Wire message `ShuffleReaderPartition`: the locations contributing to one
output partition. -/
structure ShuffleReaderPartition where
  location : List PartitionLocation
  deriving Repr, DecidableEq

/-- Wire message `ShuffleReaderExecNode`: stage id (u32), two-level
partition locations, and the schema. -/
structure ShuffleReaderExecNode where
  stage_id : Nat
  partition : List ShuffleReaderPartition
  schema : Option Schema
  deriving Repr, DecidableEq

/-- Wire message `UnresolvedShuffleExecNode`: stage id (u32), schema, and
the output partition count (u32). -/
structure UnresolvedShuffleExecNode where
  stage_id : Nat
  schema : Option Schema
  output_partition_count : Nat
  deriving Repr, DecidableEq

/-- The one-of discriminant `ballista_physical_plan_node::PhysicalPlanType`. -/
inductive PhysicalPlanType where
  | ShuffleWriter (node : ShuffleWriterExecNode)
  | ShuffleReader (node : ShuffleReaderExecNode)
  | UnresolvedShuffle (node : UnresolvedShuffleExecNode)
  deriving Repr, DecidableEq

/-- Wire envelope `BallistaPhysicalPlanNode`: an optional one-of payload
(absent payload is the malformed "physical_plan_type is none" case). -/
structure BallistaPhysicalPlanNode where
  physical_plan_type : Option PhysicalPlanType
  deriving Repr, DecidableEq

/-- The in-memory physical plan tree, restricted to the node kinds the
shuffle physical codec dispatches on.  Modelled from the spec: the
`ShuffleWriterExec`, `ShuffleReaderExec` and `UnresolvedShuffleExec` node
structures live in `ballista::execution_plans` (not part of the serde
source); their carried fields follow the spec data model, with the
executor-local shuffle-file path as `work_dir`.  `other` stands for any
engine-native node kind this codec does not own. -/
inductive ExecutionPlan where
  | shuffleWriter (job_id : String) (stage_id : Nat) (input : ExecutionPlan)
      (work_dir : String) (shuffle_output_partitioning : Option Partitioning)
  | shuffleReader (stage_id : Nat) (partition : List (List PartitionLocation))
      (schema : Schema)
  | unresolvedShuffle (stage_id : Nat) (schema : Schema)
      (output_partition_count : Nat)
  | other (schema : Schema)
  deriving Repr, DecidableEq

/-- Output schema of a plan node; a shuffle writer exposes its input's
schema, the leaf shuffle nodes carry their own. -/
def ExecutionPlan.schema : ExecutionPlan → Schema
  | .shuffleWriter _ _ input _ _ => input.schema
  | .shuffleReader _ _ s => s
  | .unresolvedShuffle _ s _ => s
  | .other s => s

/-- Modelled from the spec: `serialize_physical_expr` of the generic
expression serializer — an exact inverse of parsing, hence the identity on
the opaque expression model. -/
def serialize_physical_expr (e : PhysExpr) : Except DataFusionError PhysExpr :=
  .ok e

/-- Modelled from the spec: parsing one serialized physical expression
relative to a schema — the exact inverse of `serialize_physical_expr`. -/
def parse_physical_expr (_schema : Schema) (e : PhysExpr) :
    Except DataFusionError PhysExpr :=
  .ok e

/-- Modelled from the spec: internal partition location to its wire message
(`l.clone().try_into()` on encode); conversion is bidirectional. -/
def partitionLocationToProto (l : PartitionLocation) :
    Except DataFusionError PartitionLocation :=
  .ok l

/-- Modelled from the spec: wire partition location back to the internal
value (`l.clone().try_into()` on decode). -/
def partitionLocationFromProto (l : PartitionLocation) :
    Except DataFusionError PartitionLocation :=
  .ok l

/-- Modelled from the spec: engine schema to its wire form
(`schema.as_ref().try_into()`); exact inverse of `schemaFromProto`. -/
def schemaToProto (s : Schema) : Except DataFusionError Schema :=
  .ok s

/-- Modelled from the spec: wire schema back to the engine schema; exact
inverse of `schemaToProto`. -/
def schemaFromProto (s : Schema) : Except DataFusionError Schema :=
  .ok s

/-- The `convert_required!` macro of datafusion-proto applied to an optional
schema field: a missing field is an error, a present field is converted. -/
def convert_required (o : Option Schema) : Except DataFusionError Schema :=
  match o with
  | some s => schemaFromProto s
  | none => .error (.Internal "Missing required field")

/-- Rust `Iterator::collect::<Result<Vec<_>, _>>()`: apply `f` to each
element, short-circuiting on the first error. -/
def collectExcept (f : α → Except DataFusionError β) :
    List α → Except DataFusionError (List β)
  | [] => .ok []
  | a :: rest =>
      match f a with
      | .error e => .error e
      | .ok b =>
          match collectExcept f rest with
          | .error e => .error e
          | .ok bs => .ok (b :: bs)

/-- Modelled from the spec: `parse_protobuf_hash_partitioning` of
datafusion-proto — an absent message is "no partitioning", a present message
parses each expression against the given schema and yields hash
partitioning with the message's bucket count (u64 widened to usize). -/
def parse_protobuf_hash_partitioning (o : Option PhysicalHashRepartition)
    (schema : Schema) : Except DataFusionError (Option Partitioning) :=
  match o with
  | none => .ok none
  | some h =>
      match collectExcept (parse_physical_expr schema) h.hash_expr with
      | .error e => .error e
      | .ok exprs => .ok (some (.Hash exprs h.partition_count))

/-- Modelled from the spec: `ShuffleWriterExec::try_new` — builds the writer
node from job id, stage id, input, local shuffle-file path and optional
shuffle output partitioning. -/
def ShuffleWriterExec.try_new (job_id : String) (stage_id : Nat)
    (input : ExecutionPlan) (work_dir : String) (sop : Option Partitioning) :
    Except DataFusionError ExecutionPlan :=
  .ok (.shuffleWriter job_id stage_id input work_dir sop)

/-- Modelled from the spec: `ShuffleReaderExec::try_new` — builds the reader
leaf from stage id, two-level partition locations and schema. -/
def ShuffleReaderExec.try_new (stage_id : Nat)
    (partition : List (List PartitionLocation)) (schema : Schema) :
    Except DataFusionError ExecutionPlan :=
  .ok (.shuffleReader stage_id partition schema)

/-- Modelled from the spec: `UnresolvedShuffleExec::new`. -/
def UnresolvedShuffleExec.new (stage_id : Nat) (schema : Schema)
    (output_partition_count : Nat) : ExecutionPlan :=
  .unresolvedShuffle stage_id schema output_partition_count

/-- Debug rendering of a partitioning value, standing for Rust's
`{other:?}` formatting in the invalid-partitioning error message. -/
def partitioningDebug : Partitioning → String
  | .RoundRobinBatch n => "RoundRobinBatch(" ++ toString n ++ ")"
  | .Hash exprs n =>
      "Hash(" ++ toString exprs.length ++ " exprs, " ++ toString n ++ ")"
  | .UnknownPartitioning n => "UnknownPartitioning(" ++ toString n ++ ")"

/-- Debug rendering of the optional partitioning matched by the `other` arm
of the encoder. -/
def optPartitioningDebug : Option Partitioning → String
  | none => "None"
  | some p => "Some(" ++ partitioningDebug p ++ ")"

/-- The invalid-partitioning `Internal` error message of the encoder. -/
def invalidPartitioningMsg (p : Option Partitioning) : String :=
  "physical_plan::to_proto() invalid partitioning for ShuffleWriterExec: "
    ++ optPartitioningDebug p

/-- The closure the reader encoder runs per output partition: convert every
location of one partition and wrap them in a `ShuffleReaderPartition`. -/
def readerPartitionToProto (loc : List PartitionLocation) :
    Except DataFusionError ShuffleReaderPartition :=
  match collectExcept partitionLocationToProto loc with
  | .error e => .error e
  | .ok ls => .ok ⟨ls⟩

/-- The closure the reader decoder runs per wire partition: convert every
location message of one `ShuffleReaderPartition` back. -/
def readerPartitionFromProto (p : ShuffleReaderPartition) :
    Except DataFusionError (List PartitionLocation) :=
  collectExcept partitionLocationFromProto p.location

/-- `BallistaPhysicalExtensionCodec::try_encode`: dispatch on the runtime
node kind.  A shuffle writer embeds job id, the stage id cast `as u32`, an
absent input field, and the partitioning (hash serialized through the
generic expression serializer with the bucket count cast `as u64`; no
partitioning stays absent; any other kind is an `Internal` error).  A
shuffle reader embeds the stage id `as u32`, the converted two-level
locations and the schema.  An unresolved shuffle embeds stage id and output
partition count `as u32` plus the schema.  Any other node kind is an
`Internal` "unsupported plan type" error.  The prost message appended to the
caller's buffer is returned directly (message-level byte model). -/
def BallistaPhysicalExtensionCodec.try_encode :
    ExecutionPlan → Except DataFusionError BallistaPhysicalPlanNode
  | .shuffleWriter job_id stage_id _input _work_dir sop =>
      match sop with
      | some (.Hash exprs partition_count) =>
          match collectExcept serialize_physical_expr exprs with
          | .error e => .error e
          | .ok hash_expr =>
              .ok ⟨some (.ShuffleWriter
                ⟨job_id, stage_id % 2 ^ 32, none,
                 some ⟨hash_expr, partition_count % 2 ^ 64⟩⟩)⟩
      | none => .ok ⟨some (.ShuffleWriter ⟨job_id, stage_id % 2 ^ 32, none, none⟩)⟩
      | some p => .error (.Internal (invalidPartitioningMsg (some p)))
  | .shuffleReader stage_id partition schema =>
      match collectExcept readerPartitionToProto partition with
      | .error e => .error e
      | .ok part =>
          match schemaToProto schema with
          | .error e => .error e
          | .ok s => .ok ⟨some (.ShuffleReader ⟨stage_id % 2 ^ 32, part, some s⟩)⟩
  | .unresolvedShuffle stage_id schema output_partition_count =>
      match schemaToProto schema with
      | .error e => .error e
      | .ok s =>
          .ok ⟨some (.UnresolvedShuffle
            ⟨stage_id % 2 ^ 32, some s, output_partition_count % 2 ^ 32⟩)⟩
  | .other _ => .error (.Internal "unsupported plan type")

/-- Outcome of a decode call: a value, a returned error, or a Rust panic. -/
inductive PResult (α : Type) where
  | ok (a : α)
  | err (e : DataFusionError)
  | panicked (msg : String)
  deriving Repr, DecidableEq

/-- `BallistaPhysicalExtensionCodec::try_decode` on a well-formed envelope
(the prost parse step is the message-level identity).  An absent one-of
payload is an `Internal` error.  The shuffle-writer arm reads `inputs[0]` —
a panic when no child was supplied — parses the optional hash partitioning
against that child's schema, and rebuilds the writer with an empty local
shuffle-file path.  The reader and unresolved arms never touch `inputs`:
they rebuild the leaf from the envelope alone (schema required). -/
def BallistaPhysicalExtensionCodec.try_decode (msg : BallistaPhysicalPlanNode)
    (inputs : List ExecutionPlan) : PResult ExecutionPlan :=
  match msg.physical_plan_type with
  | none =>
      .err (.Internal
        "Could not deserialize BallistaPhysicalPlanNode because its physical_plan_type is none")
  | some (.ShuffleWriter shuffle_writer) =>
      match inputs[0]? with
      | none => .panicked "index out of bounds: the len is 0 but the index is 0"
      | some input =>
          match parse_protobuf_hash_partitioning
              shuffle_writer.output_partitioning input.schema with
          | .error e => .err e
          | .ok shuffle_output_partitioning =>
              match ShuffleWriterExec.try_new shuffle_writer.job_id
                  shuffle_writer.stage_id input "" shuffle_output_partitioning with
              | .error e => .err e
              | .ok plan => .ok plan
  | some (.ShuffleReader shuffle_reader) =>
      match convert_required shuffle_reader.schema with
      | .error e => .err e
      | .ok schema =>
          match collectExcept readerPartitionFromProto shuffle_reader.partition with
          | .error e => .err e
          | .ok partition_location =>
              match ShuffleReaderExec.try_new shuffle_reader.stage_id
                  partition_location schema with
              | .error e => .err e
              | .ok plan => .ok plan
  | some (.UnresolvedShuffle unresolved_shuffle) =>
      match convert_required unresolved_shuffle.schema with
      | .error e => .err e
      | .ok schema =>
          .ok (UnresolvedShuffleExec.new unresolved_shuffle.stage_id schema
            unresolved_shuffle.output_partition_count)

theorem collectExcept_ok (f : α → Except DataFusionError β) (g : α → β)
    (hf : ∀ a, f a = .ok (g a)) (l : List α) :
    collectExcept f l = .ok (l.map g) := by
  induction l with
  | nil => rfl
  | cons a rest ih => simp [collectExcept, hf a, ih]

theorem collect_serialize (l : List PhysExpr) :
    collectExcept serialize_physical_expr l = .ok l := by
  simpa using collectExcept_ok serialize_physical_expr id (fun _ => rfl) l

theorem collect_parse (sch : Schema) (l : List PhysExpr) :
    collectExcept (parse_physical_expr sch) l = .ok l := by
  simpa using collectExcept_ok (parse_physical_expr sch) id (fun _ => rfl) l

theorem collect_locTo (l : List PartitionLocation) :
    collectExcept partitionLocationToProto l = .ok l := by
  simpa using collectExcept_ok partitionLocationToProto id (fun _ => rfl) l

theorem collect_locFrom (l : List PartitionLocation) :
    collectExcept partitionLocationFromProto l = .ok l := by
  simpa using collectExcept_ok partitionLocationFromProto id (fun _ => rfl) l

theorem readerPartitionToProto_eq (loc : List PartitionLocation) :
    readerPartitionToProto loc = .ok ⟨loc⟩ := by
  simp [readerPartitionToProto, collect_locTo]

theorem readerPartitionFromProto_eq (p : ShuffleReaderPartition) :
    readerPartitionFromProto p = .ok p.location := by
  simp [readerPartitionFromProto, collect_locFrom]

theorem collect_readerTo (part : List (List PartitionLocation)) :
    collectExcept readerPartitionToProto part =
      .ok (part.map (fun l => ShuffleReaderPartition.mk l)) :=
  collectExcept_ok readerPartitionToProto (fun l => ⟨l⟩)
    readerPartitionToProto_eq part

theorem collect_readerFrom (part : List ShuffleReaderPartition) :
    collectExcept readerPartitionFromProto part =
      .ok (part.map (fun p => p.location)) :=
  collectExcept_ok readerPartitionFromProto (fun p => p.location)
    readerPartitionFromProto_eq part

theorem encode_writer_none (jid wd : String) (sid : Nat) (input : ExecutionPlan) :
    BallistaPhysicalExtensionCodec.try_encode
        (.shuffleWriter jid sid input wd none) =
      .ok ⟨some (.ShuffleWriter ⟨jid, sid % 2 ^ 32, none, none⟩)⟩ :=
  rfl

theorem encode_writer_hash (jid wd : String) (sid k : Nat)
    (input : ExecutionPlan) (es : List PhysExpr) :
    BallistaPhysicalExtensionCodec.try_encode
        (.shuffleWriter jid sid input wd (some (.Hash es k))) =
      .ok ⟨some (.ShuffleWriter
        ⟨jid, sid % 2 ^ 32, none, some ⟨es, k % 2 ^ 64⟩⟩)⟩ := by
  simp [BallistaPhysicalExtensionCodec.try_encode, collect_serialize]

theorem encode_reader (sid : Nat) (part : List (List PartitionLocation))
    (sch : Schema) :
    BallistaPhysicalExtensionCodec.try_encode (.shuffleReader sid part sch) =
      .ok ⟨some (.ShuffleReader
        ⟨sid % 2 ^ 32, part.map (fun l => ShuffleReaderPartition.mk l),
         some sch⟩)⟩ := by
  simp [BallistaPhysicalExtensionCodec.try_encode, collect_readerTo, schemaToProto]

theorem encode_unresolved (sid opc : Nat) (sch : Schema) :
    BallistaPhysicalExtensionCodec.try_encode (.unresolvedShuffle sid sch opc) =
      .ok ⟨some (.UnresolvedShuffle
        ⟨sid % 2 ^ 32, some sch, opc % 2 ^ 32⟩)⟩ :=
  rfl

theorem decode_writer (jid : String) (sid : Nat) (inp : Option Unit)
    (op : Option PhysicalHashRepartition) (c : ExecutionPlan)
    (rest : List ExecutionPlan) :
    BallistaPhysicalExtensionCodec.try_decode
        ⟨some (.ShuffleWriter ⟨jid, sid, inp, op⟩)⟩ (c :: rest) =
      .ok (.shuffleWriter jid sid c ""
        (op.map (fun h => .Hash h.hash_expr h.partition_count))) := by
  cases op with
  | none =>
      simp [BallistaPhysicalExtensionCodec.try_decode,
        parse_protobuf_hash_partitioning, ShuffleWriterExec.try_new]
  | some h =>
      simp [BallistaPhysicalExtensionCodec.try_decode,
        parse_protobuf_hash_partitioning, collect_parse,
        ShuffleWriterExec.try_new]

theorem decode_reader (sid : Nat) (part : List ShuffleReaderPartition)
    (sch : Schema) (cs : List ExecutionPlan) :
    BallistaPhysicalExtensionCodec.try_decode
        ⟨some (.ShuffleReader ⟨sid, part, some sch⟩)⟩ cs =
      .ok (.shuffleReader sid (part.map (fun p => p.location)) sch) := by
  simp [BallistaPhysicalExtensionCodec.try_decode, convert_required,
    schemaFromProto, collect_readerFrom, ShuffleReaderExec.try_new]

theorem decode_unresolved (sid opc : Nat) (sch : Schema)
    (cs : List ExecutionPlan) :
    BallistaPhysicalExtensionCodec.try_decode
        ⟨some (.UnresolvedShuffle ⟨sid, some sch, opc⟩)⟩ cs =
      .ok (.unresolvedShuffle sid sch opc) :=
  rfl

/-- A sub-codec that writes one byte (9) into the scratch buffer and then
fails: a legal `LogicalExtensionCodec` implementation that mutates the
caller's buffer before returning an error. -/
def dirtyCodec : SubCodec where
  encode_ff _ := ([9], some (.Internal "dirty codec rejects all formats"))
  decode_ff _ := .error (.Internal "dirty codec decodes nothing")

/-- A sub-codec that accepts every format, writing the blob [7]; its decoder
returns the blob length. -/
def okCodec7 : SubCodec where
  encode_ff _ := ([7], none)
  decode_ff bytes := .ok bytes.length

/-- A sub-codec that rejects every format without writing anything. -/
def cleanFailCodec : SubCodec where
  encode_ff _ := ([], some (.Internal "clean codec rejects all formats"))
  decode_ff _ := .error (.Internal "clean codec decodes nothing")

theorem writesConcat_cleanFail (node n : Nat) :
    writesConcat node (List.replicate n cleanFailCodec) = [] := by
  induction n with
  | zero => rfl
  | succ n ih =>
      rw [List.replicate_succ]
      exact ih

/-- C2 (counterexample): with sub-codecs [dirtyCodec, okCodec7], the dirty
codec at position 0 writes a residual byte 9 into the shared scratch buffer
before failing, so the bytes appended for the winner at position 1 are
[1, 9, 7] — not the position byte 1 followed by the winner's blob [7] as the
claim states. -/
theorem C2_counterexample :
    BallistaLogicalExtensionCodec.try_encode_file_format
        ⟨defaultLogicalCodec, [dirtyCodec, okCodec7]⟩ [] 0 = .ok [1, 9, 7] ∧
    (okCodec7.encode_ff 0).1 = [7] ∧
    ([1, 9, 7] : List Nat) ≠ 1 :: [7] :=
  ⟨rfl, rfl, by decide⟩

/-- C2 (amended): when the sub-codec at position i (i below 256) is the
first to succeed, try_encode_file_format appends the single byte i followed
by the bytes written by every attempted sub-codec in order — the failed
attempts' residue and then the winner's blob, which is the winner's blob
alone exactly when the failed attempts wrote nothing — and
try_decode_file_format on a stream with leading byte i dispatches the
remaining bytes to exactly the sub-codec at position i, whatever the other
sub-codecs are. -/
theorem C2_position_dispatch (d ci : SubCodec) (pre post : List SubCodec)
    (buf rest : List Nat) (node : Nat)
    (hfail : ∀ c ∈ pre, ((c.encode_ff node).2).isSome)
    (hok : (ci.encode_ff node).2 = none)
    (hlt : pre.length < 256) :
    BallistaLogicalExtensionCodec.try_encode_file_format
        ⟨d, pre ++ ci :: post⟩ buf node =
      .ok (buf ++ pre.length ::
        (writesConcat node pre ++ (ci.encode_ff node).1)) ∧
    BallistaLogicalExtensionCodec.try_decode_file_format
        ⟨d, pre ++ ci :: post⟩ (pre.length :: rest) = ci.decode_ff rest := by
  constructor
  · unfold BallistaLogicalExtensionCodec.try_encode_file_format
      BallistaLogicalExtensionCodec.try_any
    rw [tryAnyGo_first_success node ci post hok pre 0 [] none hfail]
    simp [Nat.mod_eq_of_lt hlt]
  · unfold BallistaLogicalExtensionCodec.try_decode_file_format
    have hget : (pre ++ ci :: post)[pre.length]? = some ci := by
      rw [List.getElem?_append_right (le_refl _)]
      simp
    simp [hget]

/-- C2 (witness): concrete instance with one clean failing codec before the
winner. -/
theorem C2_position_dispatch_witness :
    ((∀ c ∈ [cleanFailCodec], ((c.encode_ff 0).2).isSome) ∧
      (okCodec7.encode_ff 0).2 = none ∧ [cleanFailCodec].length < 256) ∧
    (BallistaLogicalExtensionCodec.try_encode_file_format
        ⟨defaultLogicalCodec, [cleanFailCodec, okCodec7]⟩ [] 0 =
      .ok ([] ++ [cleanFailCodec].length ::
        (writesConcat 0 [cleanFailCodec] ++ (okCodec7.encode_ff 0).1)) ∧
    BallistaLogicalExtensionCodec.try_decode_file_format
        ⟨defaultLogicalCodec, [cleanFailCodec, okCodec7]⟩
        ([cleanFailCodec].length :: [5, 6]) = okCodec7.decode_ff [5, 6]) :=
  ⟨⟨by decide, rfl, by decide⟩,
   C2_position_dispatch defaultLogicalCodec okCodec7 [cleanFailCodec] []
     [] [5, 6] 0 (by decide) rfl (by decide)⟩

/-- C3 (counterexample): with 257 sub-codecs whose first accepting codec
sits at position 256, try_encode_file_format does not fail — it succeeds
and writes the truncated position byte 256 mod 256 = 0 followed by the
winner's blob. -/
theorem C3_counterexample :
    BallistaLogicalExtensionCodec.try_encode_file_format
        ⟨defaultLogicalCodec,
          List.replicate 256 cleanFailCodec ++ [okCodec7]⟩ [] 0 =
      .ok [0, 7] ∧
    (256 % 256 : Nat) = 0 := by
  constructor
  · unfold BallistaLogicalExtensionCodec.try_encode_file_format
      BallistaLogicalExtensionCodec.try_any
    rw [tryAnyGo_first_success 0 okCodec7 [] rfl
      (List.replicate 256 cleanFailCodec) 0 [] none
      (fun c hc => by rw [List.eq_of_mem_replicate hc]; rfl)]
    rw [writesConcat_cleanFail, List.length_replicate]
    rfl
  · rfl

/-- C3 (amended): for a composed logical codec with more than 256 sub-codec
entries whose first accepting sub-codec sits at position 256 or beyond,
try_encode_file_format does not fail: it succeeds and writes the position
byte silently truncated modulo 256. -/
theorem C3_position_overflow (d ci : SubCodec) (pre post : List SubCodec)
    (buf : List Nat) (node : Nat)
    (hfail : ∀ c ∈ pre, ((c.encode_ff node).2).isSome)
    (hok : (ci.encode_ff node).2 = none)
    (hge : 256 ≤ pre.length) :
    BallistaLogicalExtensionCodec.try_encode_file_format
        ⟨d, pre ++ ci :: post⟩ buf node =
      .ok (buf ++ (pre.length % 256) ::
        (writesConcat node pre ++ (ci.encode_ff node).1)) := by
  unfold BallistaLogicalExtensionCodec.try_encode_file_format
    BallistaLogicalExtensionCodec.try_any
  rw [tryAnyGo_first_success node ci post hok pre 0 [] none hfail]
  simp

/-- C3 (witness): the 257-codec instance, first acceptance at position 256,
byte written 256 mod 256. -/
theorem C3_position_overflow_witness :
    (256 ≤ (List.replicate 256 cleanFailCodec).length) ∧
    BallistaLogicalExtensionCodec.try_encode_file_format
        ⟨defaultLogicalCodec,
          List.replicate 256 cleanFailCodec ++ [okCodec7]⟩ [3] 0 =
      .ok ([3] ++ ((List.replicate 256 cleanFailCodec).length % 256) ::
        (writesConcat 0 (List.replicate 256 cleanFailCodec) ++
          (okCodec7.encode_ff 0).1)) :=
  ⟨by rw [List.length_replicate],
   C3_position_overflow defaultLogicalCodec okCodec7
     (List.replicate 256 cleanFailCodec) [] [3] 0
     (fun c hc => by rw [List.eq_of_mem_replicate hc]; rfl) rfl
     (by rw [List.length_replicate])⟩

/-- C5 (confirmed): try_decode_file_format on an empty input fails with the
"more than 0 bytes" error, and on a leading byte at or beyond the number of
registered sub-codecs fails with the "required codex" lookup error; both
conclusions hold for every sub-codec list, so no sub-codec behaviour is
ever consulted. -/
theorem C5_decode_failure_modes (d : SubCodec) (codecs : List SubCodec)
    (b : Nat) (rest : List Nat) (hb : codecs.length ≤ b) :
    BallistaLogicalExtensionCodec.try_decode_file_format ⟨d, codecs⟩ [] =
      .error (.NotImplemented "File format blob should have more than 0 bytes") ∧
    BallistaLogicalExtensionCodec.try_decode_file_format ⟨d, codecs⟩ (b :: rest) =
      .error (.NotImplemented "Cant find required codex") := by
  refine ⟨rfl, ?_⟩
  unfold BallistaLogicalExtensionCodec.try_decode_file_format
  have hget : codecs[b]? = none := List.getElem?_eq_none hb
  simp [hget]

/-- C5 (witness): one registered sub-codec, leading byte 5. -/
theorem C5_decode_failure_modes_witness :
    ([okCodec7].length ≤ 5) ∧
    (BallistaLogicalExtensionCodec.try_decode_file_format
        ⟨defaultLogicalCodec, [okCodec7]⟩ [] =
      .error (.NotImplemented "File format blob should have more than 0 bytes") ∧
    BallistaLogicalExtensionCodec.try_decode_file_format
        ⟨defaultLogicalCodec, [okCodec7]⟩ (5 :: [1]) =
      .error (.NotImplemented "Cant find required codex")) :=
  ⟨by decide,
   C5_decode_failure_modes defaultLogicalCodec [okCodec7] 5 [1] (by decide)⟩

/-- C7 (confirmed): when every registered sub-codec fails,
try_encode_file_format propagates the last sub-codec's concrete error, and
with an empty sub-codec list it fails with the "Empty list of composed
codecs" error; neither case returns success. -/
theorem C7_all_fail (d clast : SubCodec) (cs : List SubCodec)
    (buf : List Nat) (node : Nat) (e : DataFusionError)
    (hall : ∀ c ∈ cs, ((c.encode_ff node).2).isSome)
    (hlast : (clast.encode_ff node).2 = some e) :
    BallistaLogicalExtensionCodec.try_encode_file_format
        ⟨d, cs ++ [clast]⟩ buf node = .error e ∧
    BallistaLogicalExtensionCodec.try_encode_file_format ⟨d, []⟩ buf node =
      .error (.NotImplemented "Empty list of composed codecs") := by
  refine ⟨?_, rfl⟩
  unfold BallistaLogicalExtensionCodec.try_encode_file_format
    BallistaLogicalExtensionCodec.try_any
  rw [tryAnyGo_all_fail node clast e hlast cs 0 [] none hall]

/-- C7 (witness): a clean failure followed by the dirty failure whose error
is surfaced verbatim. -/
theorem C7_all_fail_witness :
    ((∀ c ∈ [cleanFailCodec], ((c.encode_ff 0).2).isSome) ∧
      (dirtyCodec.encode_ff 0).2 =
        some (.Internal "dirty codec rejects all formats")) ∧
    (BallistaLogicalExtensionCodec.try_encode_file_format
        ⟨defaultLogicalCodec, [cleanFailCodec, dirtyCodec]⟩ [] 0 =
      .error (.Internal "dirty codec rejects all formats") ∧
    BallistaLogicalExtensionCodec.try_encode_file_format
        ⟨defaultLogicalCodec, []⟩ [] 0 =
      .error (.NotImplemented "Empty list of composed codecs")) :=
  ⟨⟨by decide, rfl⟩,
   C7_all_fail defaultLogicalCodec dirtyCodec [cleanFailCodec] [] 0
     (.Internal "dirty codec rejects all formats") (by decide) rfl⟩

/-- C9 (confirmed): the scratch buffer of try_encode_file_format is passed
to every attempt without clearing, so the payload after the position byte
is the concatenation of all bytes written by every attempted sub-codec in
order (failed residue before the winner's blob), and it equals the winner's
blob verbatim exactly when every failed attempt wrote nothing. -/
theorem C9_residual_bytes (d ci : SubCodec) (pre post : List SubCodec)
    (buf : List Nat) (node : Nat)
    (hfail : ∀ c ∈ pre, ((c.encode_ff node).2).isSome)
    (hok : (ci.encode_ff node).2 = none) :
    BallistaLogicalExtensionCodec.try_encode_file_format
        ⟨d, pre ++ ci :: post⟩ buf node =
      .ok (buf ++ (pre.length % 256) ::
        (writesConcat node pre ++ (ci.encode_ff node).1)) ∧
    (writesConcat node pre = [] →
      BallistaLogicalExtensionCodec.try_encode_file_format
          ⟨d, pre ++ ci :: post⟩ buf node =
        .ok (buf ++ (pre.length % 256) :: (ci.encode_ff node).1)) := by
  have henc : BallistaLogicalExtensionCodec.try_encode_file_format
      ⟨d, pre ++ ci :: post⟩ buf node =
      .ok (buf ++ (pre.length % 256) ::
        (writesConcat node pre ++ (ci.encode_ff node).1)) := by
    unfold BallistaLogicalExtensionCodec.try_encode_file_format
      BallistaLogicalExtensionCodec.try_any
    rw [tryAnyGo_first_success node ci post hok pre 0 [] none hfail]
    simp
  exact ⟨henc, fun h => by rw [henc, h]; simp⟩

/-- C9 (witness): the dirty codec's residual byte 9 precedes the winner's
blob [7] in the encoded output. -/
theorem C9_residual_bytes_witness :
    ((∀ c ∈ [dirtyCodec], ((c.encode_ff 0).2).isSome) ∧
      (okCodec7.encode_ff 0).2 = none) ∧
    BallistaLogicalExtensionCodec.try_encode_file_format
        ⟨defaultLogicalCodec, [dirtyCodec, okCodec7]⟩ [] 0 =
      .ok ([] ++ ([dirtyCodec].length % 256) ::
        (writesConcat 0 [dirtyCodec] ++ (okCodec7.encode_ff 0).1)) :=
  ⟨⟨by decide, rfl⟩,
   (C9_residual_bytes defaultLogicalCodec okCodec7 [dirtyCodec] [] [] 0
     (by decide) rfl).1⟩

/-- C1 (counterexample): an UnresolvedShuffle node with stage_id 2^32 is
constructible, encodes successfully (the `as u32` cast reduces the stage id
to 0), and decodes to a node whose stage_id is 0, not 2^32 — so the
round-trip law fails on all constructible nodes as stated. -/
theorem C1_counterexample :
    BallistaPhysicalExtensionCodec.try_encode
        (.unresolvedShuffle (2 ^ 32) [("a", 1)] 1) =
      .ok ⟨some (.UnresolvedShuffle ⟨0, some [("a", 1)], 1⟩)⟩ ∧
    BallistaPhysicalExtensionCodec.try_decode
        ⟨some (.UnresolvedShuffle ⟨0, some [("a", 1)], 1⟩)⟩ [] =
      .ok (.unresolvedShuffle 0 [("a", 1)] 1) ∧
    (0 : Nat) ≠ 2 ^ 32 :=
  ⟨rfl, rfl, by decide⟩

/-- C1 (amended): for every constructible ShuffleWriter, ShuffleReader or
UnresolvedShuffle node whose stage_id and output_partition_count are below
2^32 and whose hash bucket count is below 2^64 (automatic for 64-bit
usize), decoding the envelope produced by try_encode with the appropriate
already-decoded children yields a node equal on all carried fields (job_id,
stage_id, input, partition locations, schema, output_partition_count,
partitioning); in particular a ShuffleWriter with no output partitioning
decodes to no partitioning, not hash partitioning with zero buckets. -/
theorem C1_roundtrip (jid wd : String) (sid opc k : Nat)
    (input : ExecutionPlan) (es : List PhysExpr)
    (part : List (List PartitionLocation)) (sch : Schema)
    (hsid : sid < 2 ^ 32) (hopc : opc < 2 ^ 32) (hk : k < 2 ^ 64) :
    (BallistaPhysicalExtensionCodec.try_encode
        (.shuffleWriter jid sid input wd none) =
      .ok ⟨some (.ShuffleWriter ⟨jid, sid, none, none⟩)⟩ ∧
    BallistaPhysicalExtensionCodec.try_decode
        ⟨some (.ShuffleWriter ⟨jid, sid, none, none⟩)⟩ [input] =
      .ok (.shuffleWriter jid sid input "" none)) ∧
    (BallistaPhysicalExtensionCodec.try_encode
        (.shuffleWriter jid sid input wd (some (.Hash es k))) =
      .ok ⟨some (.ShuffleWriter ⟨jid, sid, none, some ⟨es, k⟩⟩)⟩ ∧
    BallistaPhysicalExtensionCodec.try_decode
        ⟨some (.ShuffleWriter ⟨jid, sid, none, some ⟨es, k⟩⟩)⟩ [input] =
      .ok (.shuffleWriter jid sid input "" (some (.Hash es k)))) ∧
    (BallistaPhysicalExtensionCodec.try_encode (.shuffleReader sid part sch) =
      .ok ⟨some (.ShuffleReader
        ⟨sid, part.map (fun l => ShuffleReaderPartition.mk l), some sch⟩)⟩ ∧
    BallistaPhysicalExtensionCodec.try_decode
        ⟨some (.ShuffleReader
          ⟨sid, part.map (fun l => ShuffleReaderPartition.mk l), some sch⟩)⟩ [] =
      .ok (.shuffleReader sid part sch)) ∧
    (BallistaPhysicalExtensionCodec.try_encode
        (.unresolvedShuffle sid sch opc) =
      .ok ⟨some (.UnresolvedShuffle ⟨sid, some sch, opc⟩)⟩ ∧
    BallistaPhysicalExtensionCodec.try_decode
        ⟨some (.UnresolvedShuffle ⟨sid, some sch, opc⟩)⟩ [] =
      .ok (.unresolvedShuffle sid sch opc)) := by
  have h1 : sid % 2 ^ 32 = sid := Nat.mod_eq_of_lt hsid
  have h2 : opc % 2 ^ 32 = opc := Nat.mod_eq_of_lt hopc
  have h3 : k % 2 ^ 64 = k := Nat.mod_eq_of_lt hk
  refine ⟨⟨?_, ?_⟩, ⟨?_, ?_⟩, ⟨?_, ?_⟩, ⟨?_, ?_⟩⟩
  · rw [encode_writer_none, h1]
  · simp [decode_writer]
  · rw [encode_writer_hash, h1, h3]
  · simp [decode_writer]
  · rw [encode_reader, h1]
  · rw [decode_reader]
    simp [List.map_map, Function.comp_def]
  · rw [encode_unresolved, h1, h2]
  · exact decode_unresolved sid opc sch []

/-- C1 (witness): concrete round trip at stage_id 3. -/
theorem C1_roundtrip_witness :
    ((3 : Nat) < 2 ^ 32 ∧ (2 : Nat) < 2 ^ 32 ∧ (4 : Nat) < 2 ^ 64) ∧
    (BallistaPhysicalExtensionCodec.try_encode
        (.shuffleWriter "job" 3 (.other [("a", 1)]) "/tmp/x" none) =
      .ok ⟨some (.ShuffleWriter ⟨"job", 3, none, none⟩)⟩ ∧
    BallistaPhysicalExtensionCodec.try_decode
        ⟨some (.ShuffleWriter ⟨"job", 3, none, none⟩)⟩ [.other [("a", 1)]] =
      .ok (.shuffleWriter "job" 3 (.other [("a", 1)]) "" none)) ∧
    (BallistaPhysicalExtensionCodec.try_encode
        (.shuffleWriter "job" 3 (.other [("a", 1)]) "/tmp/x"
          (some (.Hash [1, 2] 4))) =
      .ok ⟨some (.ShuffleWriter ⟨"job", 3, none, some ⟨[1, 2], 4⟩⟩)⟩ ∧
    BallistaPhysicalExtensionCodec.try_decode
        ⟨some (.ShuffleWriter ⟨"job", 3, none, some ⟨[1, 2], 4⟩⟩)⟩
        [.other [("a", 1)]] =
      .ok (.shuffleWriter "job" 3 (.other [("a", 1)]) ""
        (some (.Hash [1, 2] 4)))) ∧
    (BallistaPhysicalExtensionCodec.try_encode
        (.shuffleReader 3 [[10], [20, 30]] [("a", 1)]) =
      .ok ⟨some (.ShuffleReader
        ⟨3, [[10], [20, 30]].map (fun l => ShuffleReaderPartition.mk l),
         some [("a", 1)]⟩)⟩ ∧
    BallistaPhysicalExtensionCodec.try_decode
        ⟨some (.ShuffleReader
          ⟨3, [[10], [20, 30]].map (fun l => ShuffleReaderPartition.mk l),
           some [("a", 1)]⟩)⟩ [] =
      .ok (.shuffleReader 3 [[10], [20, 30]] [("a", 1)])) ∧
    (BallistaPhysicalExtensionCodec.try_encode
        (.unresolvedShuffle 3 [("a", 1)] 2) =
      .ok ⟨some (.UnresolvedShuffle ⟨3, some [("a", 1)], 2⟩)⟩ ∧
    BallistaPhysicalExtensionCodec.try_decode
        ⟨some (.UnresolvedShuffle ⟨3, some [("a", 1)], 2⟩)⟩ [] =
      .ok (.unresolvedShuffle 3 [("a", 1)] 2)) :=
  ⟨⟨by decide, by decide, by decide⟩,
   C1_roundtrip "job" "/tmp/x" 3 2 4 (.other [("a", 1)]) [1, 2]
     [[10], [20, 30]] [("a", 1)] (by decide) (by decide) (by decide)⟩

/-- C4 (counterexample): try_decode of a well-formed ShuffleReader envelope
with one supplied child succeeds, ignoring the child — the claim says it
must fail because the node kind is a leaf. -/
theorem C4_counterexample :
    BallistaPhysicalExtensionCodec.try_decode
        ⟨some (.ShuffleReader ⟨3, [⟨[5]⟩], some [("a", 1)]⟩)⟩
        [.other []] =
      .ok (.shuffleReader 3 [[5]] [("a", 1)]) := by
  rw [decode_reader]
  rfl

/-- C4 (amended): try_decode enforces no child arity at all — a well-formed
ShuffleWriter envelope with zero supplied children panics with an
index-out-of-bounds (no MissingChild error), with two or more children it
succeeds using only the first child, and well-formed ShuffleReader and
UnresolvedShuffle envelopes decode to the same successful result whatever
children are supplied. -/
theorem C4_no_arity_check (jid : String) (sid opc : Nat) (inp : Option Unit)
    (op : Option PhysicalHashRepartition) (c1 c2 : ExecutionPlan)
    (rest extra : List ExecutionPlan) (sch : Schema)
    (part : List ShuffleReaderPartition) :
    BallistaPhysicalExtensionCodec.try_decode
        ⟨some (.ShuffleWriter ⟨jid, sid, inp, op⟩)⟩ [] =
      .panicked "index out of bounds: the len is 0 but the index is 0" ∧
    BallistaPhysicalExtensionCodec.try_decode
        ⟨some (.ShuffleWriter ⟨jid, sid, inp, op⟩)⟩ (c1 :: c2 :: rest) =
      BallistaPhysicalExtensionCodec.try_decode
        ⟨some (.ShuffleWriter ⟨jid, sid, inp, op⟩)⟩ [c1] ∧
    BallistaPhysicalExtensionCodec.try_decode
        ⟨some (.ShuffleWriter ⟨jid, sid, inp, op⟩)⟩ (c1 :: c2 :: rest) =
      .ok (.shuffleWriter jid sid c1 ""
        (op.map (fun h => .Hash h.hash_expr h.partition_count))) ∧
    BallistaPhysicalExtensionCodec.try_decode
        ⟨some (.ShuffleReader ⟨sid, part, some sch⟩)⟩ (c1 :: extra) =
      BallistaPhysicalExtensionCodec.try_decode
        ⟨some (.ShuffleReader ⟨sid, part, some sch⟩)⟩ [] ∧
    BallistaPhysicalExtensionCodec.try_decode
        ⟨some (.UnresolvedShuffle ⟨sid, some sch, opc⟩)⟩ (c1 :: extra) =
      .ok (.unresolvedShuffle sid sch opc) := by
  refine ⟨rfl, ?_, decode_writer jid sid inp op c1 (c2 :: rest), ?_, rfl⟩
  · rw [decode_writer, decode_writer]
  · rw [decode_reader, decode_reader]

/-- C6 (confirmed): try_encode of a ShuffleWriter succeeds exactly for hash
partitioning (expressions through the generic serializer, bucket count cast
to u64) and for absent partitioning; round-robin and unknown partitioning
fail with an Internal error before anything is written; and in every
success the wire message's input field is absent. -/
theorem C6_partitioning_restriction (jid wd : String) (sid k n : Nat)
    (input : ExecutionPlan) (es : List PhysExpr) :
    BallistaPhysicalExtensionCodec.try_encode
        (.shuffleWriter jid sid input wd (some (.Hash es k))) =
      .ok ⟨some (.ShuffleWriter
        ⟨jid, sid % 2 ^ 32, none, some ⟨es, k % 2 ^ 64⟩⟩)⟩ ∧
    BallistaPhysicalExtensionCodec.try_encode
        (.shuffleWriter jid sid input wd none) =
      .ok ⟨some (.ShuffleWriter ⟨jid, sid % 2 ^ 32, none, none⟩)⟩ ∧
    BallistaPhysicalExtensionCodec.try_encode
        (.shuffleWriter jid sid input wd (some (.RoundRobinBatch n))) =
      .error (.Internal (invalidPartitioningMsg (some (.RoundRobinBatch n)))) ∧
    BallistaPhysicalExtensionCodec.try_encode
        (.shuffleWriter jid sid input wd (some (.UnknownPartitioning n))) =
      .error (.Internal (invalidPartitioningMsg (some (.UnknownPartitioning n)))) :=
  ⟨encode_writer_hash jid wd sid k input es,
   encode_writer_none jid wd sid input, rfl, rfl⟩

/-- C8 (confirmed): every successfully decoded ShuffleWriter envelope
rebuilds the node with an empty local shuffle-file path, taking job_id and
stage_id from the envelope, the input from the supplied child, and the
partitioning parsed from the envelope (absent stays absent). -/
theorem C8_workdir_empty (jid : String) (sid k : Nat) (inp : Option Unit)
    (c : ExecutionPlan) (es : List PhysExpr) :
    BallistaPhysicalExtensionCodec.try_decode
        ⟨some (.ShuffleWriter ⟨jid, sid, inp, none⟩)⟩ [c] =
      .ok (.shuffleWriter jid sid c "" none) ∧
    BallistaPhysicalExtensionCodec.try_decode
        ⟨some (.ShuffleWriter ⟨jid, sid, inp, some ⟨es, k⟩⟩)⟩ [c] =
      .ok (.shuffleWriter jid sid c "" (some (.Hash es k))) := by
  constructor
  · simp [decode_writer]
  · simp [decode_writer]

/-- C10 (confirmed): try_encode writes stage_id (all three node kinds) and
the UnresolvedShuffle output_partition_count reduced modulo 2^32 with no
error; decode widens them back unchanged, so these fields round-trip
exactly when they are below 2^32. -/
theorem C10_narrowing (jid wd : String) (sid opc : Nat)
    (input : ExecutionPlan) (sch : Schema)
    (part : List (List PartitionLocation)) :
    BallistaPhysicalExtensionCodec.try_encode
        (.shuffleWriter jid sid input wd none) =
      .ok ⟨some (.ShuffleWriter ⟨jid, sid % 2 ^ 32, none, none⟩)⟩ ∧
    BallistaPhysicalExtensionCodec.try_encode (.shuffleReader sid part sch) =
      .ok ⟨some (.ShuffleReader
        ⟨sid % 2 ^ 32, part.map (fun l => ShuffleReaderPartition.mk l),
         some sch⟩)⟩ ∧
    BallistaPhysicalExtensionCodec.try_encode
        (.unresolvedShuffle sid sch opc) =
      .ok ⟨some (.UnresolvedShuffle ⟨sid % 2 ^ 32, some sch, opc % 2 ^ 32⟩)⟩ ∧
    BallistaPhysicalExtensionCodec.try_decode
        ⟨some (.UnresolvedShuffle ⟨sid % 2 ^ 32, some sch, opc % 2 ^ 32⟩)⟩ [] =
      .ok (.unresolvedShuffle (sid % 2 ^ 32) sch (opc % 2 ^ 32)) ∧
    ((sid % 2 ^ 32 = sid ∧ opc % 2 ^ 32 = opc) ↔
      (sid < 2 ^ 32 ∧ opc < 2 ^ 32)) := by
  refine ⟨encode_writer_none jid wd sid input, encode_reader sid part sch,
    encode_unresolved sid opc sch,
    decode_unresolved (sid % 2 ^ 32) (opc % 2 ^ 32) sch [], ?_⟩
  constructor
  · rintro ⟨h1, h2⟩
    exact ⟨h1 ▸ Nat.mod_lt sid (by norm_num),
      h2 ▸ Nat.mod_lt opc (by norm_num)⟩
  · rintro ⟨h1, h2⟩
    exact ⟨Nat.mod_eq_of_lt h1, Nat.mod_eq_of_lt h2⟩

end Ballista
